import Mathlib

/-!
Verification of the callback/observer and masking/padding guides of this
repository against their specification.

The repository consists of two instructional notebooks:
* `writing_your_own_callbacks` (src/unnamed/part_000): the Keras callback
  (observer) lifecycle, with a `CustomCallback` whose recorded output is the
  ordered trace of observer invocations for one `fit`, one `evaluate` and one
  `predict` run, plus `EarlyStoppingAtMinLoss`, `CustomLearningRateScheduler`
  and `lr_schedule`.
* `understanding_masking_and_padding_mine.ipynb`: `pad_sequences` with
  post-padding, mask-generating layers, and `CustomEmbedding.compute_mask`.

The recorded notebook outputs (event traces, the padded array, the printed
masks) are transcribed literally below; the pure functions (`lr_schedule`,
`CustomEmbedding.compute_mask`, `EarlyStoppingAtMinLoss.on_epoch_end`) are
translated from their Python source.  The fit/evaluate/predict driver loop
itself is external framework code; where a claim quantifies over all runs it
is settled against a driver modelled from the spec, clearly marked as such.
-/

namespace Keras

/-- The three kinds of run a callback can observe: `fit` (train),
`evaluate` (test) and `predict`. -/
inductive Mode where
  | train
  | test
  | predict
deriving DecidableEq, Repr

/-- One observer invocation, as printed by `CustomCallback`: the lifecycle
point, the identifying index where the method receives one, and the list of
keys of the `logs` dict passed to the method. -/
inductive Ev where
  | runBegin (m : Mode) (logKeys : List String)
  | runEnd (m : Mode) (logKeys : List String)
  | epochBegin (epoch : Nat) (logKeys : List String)
  | epochEnd (epoch : Nat) (logKeys : List String)
  | batchBegin (m : Mode) (batch : Nat) (logKeys : List String)
  | batchEnd (m : Mode) (batch : Nat) (logKeys : List String)
deriving DecidableEq, Repr

/-- Log keys printed at train/test batch ends and at `Stop testing`. -/
def metricKeys : List String := ["loss", "mean_absolute_error"]

/-- Log keys printed at `End epoch 0` and `Stop training` (training with a
validation split adds the `val_` entries). -/
def valMetricKeys : List String :=
  ["loss", "mean_absolute_error", "val_loss", "val_mean_absolute_error"]

/-- The recorded trace of `model.fit(..., epochs=1, validation_split=0.5,
callbacks=[CustomCallback()])`, transcribed line by line from the notebook
output (`Starting training` ... `Stop training`).  Note the validation
(test) run embedded between the last training batch and `End epoch 0`. -/
def fitTrace : List Ev :=
  [Ev.runBegin Mode.train [],
   Ev.epochBegin 0 [],
   Ev.batchBegin Mode.train 0 [], Ev.batchEnd Mode.train 0 metricKeys,
   Ev.batchBegin Mode.train 1 [], Ev.batchEnd Mode.train 1 metricKeys,
   Ev.batchBegin Mode.train 2 [], Ev.batchEnd Mode.train 2 metricKeys,
   Ev.batchBegin Mode.train 3 [], Ev.batchEnd Mode.train 3 metricKeys,
   Ev.runBegin Mode.test [],
   Ev.batchBegin Mode.test 0 [], Ev.batchEnd Mode.test 0 metricKeys,
   Ev.batchBegin Mode.test 1 [], Ev.batchEnd Mode.test 1 metricKeys,
   Ev.batchBegin Mode.test 2 [], Ev.batchEnd Mode.test 2 metricKeys,
   Ev.batchBegin Mode.test 3 [], Ev.batchEnd Mode.test 3 metricKeys,
   Ev.runEnd Mode.test metricKeys,
   Ev.epochEnd 0 valMetricKeys,
   Ev.runEnd Mode.train valMetricKeys]

/-- The recorded trace of `model.evaluate(..., callbacks=[CustomCallback()])`
(`Start testing` ... `Stop testing`, batches 0-7). -/
def evaluateTrace : List Ev :=
  [Ev.runBegin Mode.test [],
   Ev.batchBegin Mode.test 0 [], Ev.batchEnd Mode.test 0 metricKeys,
   Ev.batchBegin Mode.test 1 [], Ev.batchEnd Mode.test 1 metricKeys,
   Ev.batchBegin Mode.test 2 [], Ev.batchEnd Mode.test 2 metricKeys,
   Ev.batchBegin Mode.test 3 [], Ev.batchEnd Mode.test 3 metricKeys,
   Ev.batchBegin Mode.test 4 [], Ev.batchEnd Mode.test 4 metricKeys,
   Ev.batchBegin Mode.test 5 [], Ev.batchEnd Mode.test 5 metricKeys,
   Ev.batchBegin Mode.test 6 [], Ev.batchEnd Mode.test 6 metricKeys,
   Ev.batchBegin Mode.test 7 [], Ev.batchEnd Mode.test 7 metricKeys,
   Ev.runEnd Mode.test metricKeys]

/-- The recorded trace of `model.predict(..., callbacks=[CustomCallback()])`
(`Start predicting` ... `Stop predicting; got log keys: []`, batches 0-7). -/
def predictTrace : List Ev :=
  [Ev.runBegin Mode.predict [],
   Ev.batchBegin Mode.predict 0 [], Ev.batchEnd Mode.predict 0 ["outputs"],
   Ev.batchBegin Mode.predict 1 [], Ev.batchEnd Mode.predict 1 ["outputs"],
   Ev.batchBegin Mode.predict 2 [], Ev.batchEnd Mode.predict 2 ["outputs"],
   Ev.batchBegin Mode.predict 3 [], Ev.batchEnd Mode.predict 3 ["outputs"],
   Ev.batchBegin Mode.predict 4 [], Ev.batchEnd Mode.predict 4 ["outputs"],
   Ev.batchBegin Mode.predict 5 [], Ev.batchEnd Mode.predict 5 ["outputs"],
   Ev.batchBegin Mode.predict 6 [], Ev.batchEnd Mode.predict 6 ["outputs"],
   Ev.batchBegin Mode.predict 7 [], Ev.batchEnd Mode.predict 7 ["outputs"],
   Ev.runEnd Mode.predict []]

/-- The run an event belongs to: batch and run events carry their mode,
epoch events belong to the training run. -/
def evMode : Ev → Mode
  | Ev.runBegin m _ => m
  | Ev.runEnd m _ => m
  | Ev.batchBegin m _ _ => m
  | Ev.batchEnd m _ _ => m
  | Ev.epochBegin _ _ => Mode.train
  | Ev.epochEnd _ _ => Mode.train

/-- The subsequence of a trace made of the events of one run (mode). -/
def projectMode (m : Mode) (tr : List Ev) : List Ev :=
  tr.filter (fun e => decide (evMode e = m))

/-- Greedily consume a sequence of (batch-begin i, batch-end i) pairs of
mode `m` from the front of a trace, returning the remainder. -/
def chompBatches (m : Mode) : List Ev → List Ev
  | Ev.batchBegin m1 i ks1 :: Ev.batchEnd m2 j ks2 :: rest =>
      if m1 = m ∧ m2 = m ∧ i = j then chompBatches m rest
      else Ev.batchBegin m1 i ks1 :: Ev.batchEnd m2 j ks2 :: rest
  | l => l

/-- Greedily consume epoch blocks
(epoch-begin i, train-batch pairs, epoch-end i) from the front of a trace;
`fuel` bounds the recursion (the trace length suffices). -/
def chompEpochs : Nat → List Ev → Option (List Ev)
  | 0, l => some l
  | fuel + 1, Ev.epochBegin i _ :: rest =>
      match chompBatches Mode.train rest with
      | Ev.epochEnd j _ :: rest2 =>
          if i = j then chompEpochs fuel rest2 else none
      | _ => none
  | _ + 1, l => some l

/-- The nominal grammar of a training run:
run-begin, (epoch-begin, (batch-begin, batch-end)*, epoch-end)*, run-end. -/
def matchesTrainGrammar (tr : List Ev) : Bool :=
  match tr with
  | Ev.runBegin Mode.train _ :: rest =>
      match chompEpochs rest.length rest with
      | some [Ev.runEnd Mode.train _] => true
      | _ => false
  | _ => false

/-- The grammar of an evaluation or prediction run:
run-begin, (batch-begin, batch-end)*, run-end, with no epoch events. -/
def matchesFlatGrammar (m : Mode) (tr : List Ev) : Bool :=
  match tr with
  | Ev.runBegin m1 _ :: rest =>
      if m1 = m then
        match chompBatches m rest with
        | [Ev.runEnd m2 _] => decide (m2 = m)
        | _ => false
      else false
  | _ => false

/-- Is the event a "begin" lifecycle event? -/
def isBeginEv : Ev → Bool
  | Ev.runBegin _ _ => true
  | Ev.epochBegin _ _ => true
  | Ev.batchBegin _ _ _ => true
  | _ => false

/-- Is the event an "end" lifecycle event? -/
def isEndEv : Ev → Bool
  | Ev.runEnd _ _ => true
  | Ev.epochEnd _ _ => true
  | Ev.batchEnd _ _ _ => true
  | _ => false

/-- Is the event a batch-end (completion of a batch)? -/
def isBatchEndEv : Ev → Bool
  | Ev.batchEnd _ _ _ => true
  | _ => false

/-- The keys of the `logs` dict passed at the event. -/
def logKeysOf : Ev → List String
  | Ev.runBegin _ ks => ks
  | Ev.runEnd _ ks => ks
  | Ev.epochBegin _ ks => ks
  | Ev.epochEnd _ ks => ks
  | Ev.batchBegin _ _ ks => ks
  | Ev.batchEnd _ _ ks => ks

/-- Every "begin" event of the trace has an empty `logs` dict. -/
def beginsEmpty (tr : List Ev) : Bool :=
  tr.all (fun e => !isBeginEv e || (logKeysOf e).isEmpty)

/-- Every "end" event occurring once at least one batch has completed
(the completing batch-end included) has a non-empty `logs` dict.  The
accumulator records whether a batch-end has been seen. -/
def endsPopulated : Bool → List Ev → Bool
  | _, [] => true
  | seen, e :: rest =>
      let seen2 := seen || isBatchEndEv e
      (if isEndEv e then !seen2 || !(logKeysOf e).isEmpty else true)
        && endsPopulated seen2 rest

/-- The metrics contract of the claim, on one trace: empty logs at every
"begin" event, non-empty logs at every "end" event once a batch completed. -/
def metricsContract (tr : List Ev) : Bool :=
  beginsEmpty tr && endsPopulated false tr

/-- Is the event an epoch-begin or epoch-end? -/
def isEpochEv : Ev → Bool
  | Ev.epochBegin _ _ => true
  | Ev.epochEnd _ _ => true
  | _ => false

/-- Does the trace contain an epoch-begin or epoch-end event? -/
def hasEpochEvent (tr : List Ev) : Bool :=
  tr.any isEpochEv

/-! ### A run driver modelled from the spec

The fit/evaluate/predict loop itself is external framework code (out of
scope per the spec), so the driver below is modelled from the spec's words:
observers are invoked at the lifecycle points of §4.1, and the shared stop
flag an observer may set is "checked by the run driver after each
batch/epoch".  An observer is abstracted as a state-transition function
returning its new state and whether it set `model.stop_training` during
that epoch's invocations. -/

/-- The two events of one batch: batch-begin with empty logs, batch-end
with the metric keys. -/
def batchPair (m : Mode) (endKeys : List String) (i : Nat) : List Ev :=
  [Ev.batchBegin m i [], Ev.batchEnd m i endKeys]

/-- The batch events of a run segment with `nb` batches, numbered 0.. -/
def batchSeq (m : Mode) (endKeys : List String) (nb : Nat) : List Ev :=
  (List.range nb).flatMap (batchPair m endKeys)

/-- The events of one training epoch: epoch-begin, the batch pairs,
epoch-end. -/
def epochBlock (nb e : Nat) : List Ev :=
  Ev.epochBegin e [] :: (batchSeq Mode.train metricKeys nb ++ [Ev.epochEnd e metricKeys])

/-- Modelled from the spec: the training-run driver's epoch loop.  It emits
the events of epoch `e`, lets the observer `cb` update its state and
possibly set the stop flag, and checks that flag after the epoch: if set,
no further epoch runs.  `rem` is the number of epochs still scheduled. -/
def fitGo {S : Type} (cb : S → Nat → S × Bool) (nb : Nat) :
    Nat → Nat → S → List Ev
  | 0, _, _ => []
  | rem + 1, e, s =>
      epochBlock nb e ++
        (if (cb s e).2 then [] else fitGo cb nb rem (e + 1) (cb s e).1)

/-- Modelled from the spec: one full training run — run-begin, the epoch
loop, run-end (delivered also after an early stop). -/
def fitRun {S : Type} (cb : S → Nat → S × Bool) (nb epochs : Nat) (s0 : S) :
    List Ev :=
  Ev.runBegin Mode.train [] ::
    (fitGo cb nb epochs 0 s0 ++ [Ev.runEnd Mode.train metricKeys])

/-- Modelled from the spec: one evaluation or prediction run — run-begin,
the batch pairs, run-end; no epochs. -/
def flatRun (m : Mode) (endKeys runEndKeys : List String) (nb : Nat) :
    List Ev :=
  Ev.runBegin m [] :: (batchSeq m endKeys nb ++ [Ev.runEnd m runEndKeys])

/-- The observer's state after `n` epochs of invocations, starting from
state `s` at epoch index `e` (ignoring the stop flag). -/
def cbStateFrom {S : Type} (cb : S → Nat → S × Bool) : Nat → S → Nat → S
  | _, s, 0 => s
  | e, s, n + 1 => cbStateFrom cb (e + 1) (cb s e).1 n

/-- Did the observer set the stop flag during epoch `k` of the run started
in state `s0`? -/
def stopRequestedAt {S : Type} (cb : S → Nat → S × Bool) (s0 : S) (k : Nat) :
    Bool :=
  (cb (cbStateFrom cb 0 s0 k) k).2

/-- The batch events contain no epoch events. -/
lemma batchSeq_no_epoch (m : Mode) (ks : List String) (nb : Nat) :
    (batchSeq m ks nb).any isEpochEv = false := by
  induction nb with
  | zero => rfl
  | succ n ih =>
      simp only [batchSeq, List.range_succ, List.flatMap_append] at *
      simp [ih, batchPair, isEpochEv]

/-- An epoch-begin in the batch events is impossible. -/
lemma epochBegin_not_mem_batchSeq (m : Mode) (ks ks2 : List String)
    (nb j : Nat) : Ev.epochBegin j ks2 ∉ batchSeq m ks nb := by
  intro hmem
  have h := batchSeq_no_epoch m ks nb
  rw [List.any_eq_false] at h
  exact absurd (h _ hmem) (by simp [isEpochEv])

/-- If epoch `j` begins in the modelled epoch loop started at epoch `e` in
state `s`, then the observer did not request a stop at any epoch from `e`
up to (excluding) `j`. -/
lemma epochBegin_mem_fitGo {S : Type} (cb : S → Nat → S × Bool)
    (nb : Nat) :
    ∀ (rem e : Nat) (s : S) (j : Nat) (ks : List String),
      Ev.epochBegin j ks ∈ fitGo cb nb rem e s →
      ∀ n : Nat, e + n < j → (cb (cbStateFrom cb e s n) (e + n)).2 = false := by
  intro rem
  induction rem with
  | zero => intro e s j ks hmem; simp [fitGo] at hmem
  | succ r ih =>
      intro e s j ks hmem n hlt
      rw [fitGo, List.mem_append] at hmem
      rcases hmem with hblk | hrest
      · -- the event is in epoch `e`'s own block, so `j = e`
        simp only [epochBlock, List.mem_cons, List.mem_append,
          List.mem_singleton, Ev.epochBegin.injEq] at hblk
        rcases hblk with ⟨hje, _⟩ | hb | hb
        · omega
        · exact absurd hb (epochBegin_not_mem_batchSeq _ _ _ _ _)
        · exact absurd hb (by simp)
      · -- the loop continued, so the flag was not set at epoch `e`
        by_cases hstop : (cb s e).2 = true
        · simp [hstop] at hrest
        · rw [Bool.not_eq_true] at hstop
          rw [if_neg (by simp [hstop])] at hrest
          match n with
          | 0 => simpa [cbStateFrom] using hstop
          | m + 1 =>
              have := ih (e + 1) (cb s e).1 j ks hrest m (by omega)
              simpa [cbStateFrom, Nat.add_assoc, Nat.add_comm 1 m] using this

/-! ### The callback interface (`CustomCallback`'s fourteen methods) -/

/-- The six kinds of lifecycle point a callback method is attached to. -/
inductive PointKind where
  | runB
  | runE
  | epochB
  | epochE
  | batchB
  | batchE
deriving DecidableEq, Repr

/-- One overridable callback method: its Python name, the run kind it
belongs to (`none` for the training-only epoch methods, whose signature
carries no mode), its lifecycle point, and whether its signature receives
an identifying index argument (`epoch` or `batch`) besides `logs`. -/
structure CbMethod where
  name : String
  mode : Option Mode
  kind : PointKind
  takesIndex : Bool
deriving DecidableEq, Repr

/-- The overridable callback methods, in the order `CustomCallback`
defines them.  Signatures: the run-level methods take `(self, logs=None)`,
the epoch and batch methods take `(self, epoch, logs=None)` or
`(self, batch, logs=None)`. -/
def callbackMethods : List CbMethod :=
  [⟨"on_train_begin", some Mode.train, PointKind.runB, false⟩,
   ⟨"on_train_end", some Mode.train, PointKind.runE, false⟩,
   ⟨"on_epoch_begin", none, PointKind.epochB, true⟩,
   ⟨"on_epoch_end", none, PointKind.epochE, true⟩,
   ⟨"on_test_begin", some Mode.test, PointKind.runB, false⟩,
   ⟨"on_test_end", some Mode.test, PointKind.runE, false⟩,
   ⟨"on_predict_begin", some Mode.predict, PointKind.runB, false⟩,
   ⟨"on_predict_end", some Mode.predict, PointKind.runE, false⟩,
   ⟨"on_train_batch_begin", some Mode.train, PointKind.batchB, true⟩,
   ⟨"on_train_batch_end", some Mode.train, PointKind.batchE, true⟩,
   ⟨"on_test_batch_begin", some Mode.test, PointKind.batchB, true⟩,
   ⟨"on_test_batch_end", some Mode.test, PointKind.batchE, true⟩,
   ⟨"on_predict_batch_begin", some Mode.predict, PointKind.batchB, true⟩,
   ⟨"on_predict_batch_end", some Mode.predict, PointKind.batchE, true⟩]

/-- Is the point a batch-level or epoch-level one (an indexed point)? -/
def isIndexedPoint : PointKind → Bool
  | PointKind.batchB => true
  | PointKind.batchE => true
  | PointKind.epochB => true
  | PointKind.epochE => true
  | _ => false

/-! ### `CustomLearningRateScheduler` and `lr_schedule` -/

/-- `LR_SCHEDULE`: the (epoch to start, learning rate) tuples of the
notebook, rates as exact rationals (0.05, 0.01, 0.005, 0.001). -/
def LR_SCHEDULE : List (Nat × ℚ) :=
  [(3, 5/100), (6, 1/100), (9, 5/1000), (12, 1/1000)]

/-- The `for i in range(len(LR_SCHEDULE)): if epoch == LR_SCHEDULE[i][0]:
return LR_SCHEDULE[i][1]` loop: the rate of the first entry whose epoch
matches, if any. -/
def scheduleLookup : List (Nat × ℚ) → Nat → Option ℚ
  | [], _ => none
  | (e, r) :: rest, epoch =>
      if epoch = e then some r else scheduleLookup rest epoch

/-- `lr_schedule(epoch, lr)`: return `lr` outside
`[LR_SCHEDULE[0][0], LR_SCHEDULE[-1][0]]`, else the scheduled rate at an
exact boundary epoch, else `lr`. -/
def lr_schedule (epoch : Nat) (lr : ℚ) : ℚ :=
  if epoch < (LR_SCHEDULE.head?.getD (0, 0)).1 ∨
      (LR_SCHEDULE.getLast?.getD (0, 0)).1 < epoch then lr
  else (scheduleLookup LR_SCHEDULE epoch).getD lr

/-- `CustomLearningRateScheduler.on_epoch_begin`: raises
`ValueError('Optimizer must have a "lr" attribute.')` when the model's
optimizer has no `lr` attribute, otherwise reads the current rate, applies
the schedule and sets the result back on the optimizer. -/
def clrsOnEpochBegin (schedule : Nat → ℚ → ℚ) (optimizerHasLr : Bool)
    (epoch : Nat) (lr : ℚ) : Except String ℚ :=
  if !optimizerHasLr then
    Except.error "Optimizer must have a \"lr\" attribute."
  else
    Except.ok (schedule epoch lr)

/-! ### `pad_sequences(..., padding='post')` -/

/-- The common target length: the length of the longest input sequence. -/
def maxSeqLen (sequences : List (List Int)) : Nat :=
  (sequences.map List.length).foldr max 0

/-- Modelled from the spec: `tf.keras.preprocessing.sequence.pad_sequences`
with `padding='post'` is external framework code; per the spec's glossary
("extending shorter sequences to a uniform length using filler values")
and the notebook's description (default filler 0, "post" appends at the
end), each sequence is extended to the longest length by appending 0s. -/
def pad_sequences_post (sequences : List (List Int)) : List (List Int) :=
  sequences.map
    (fun s => s ++ List.replicate (maxSeqLen sequences - s.length) 0)

/-- The notebook's `raw_inputs`. -/
def raw_inputs : List (List Int) :=
  [[711, 632, 71],
   [73, 8, 3215, 55, 927],
   [83, 91, 1, 645, 1253, 927]]

/-- The notebook's recorded `padded_inputs` array. -/
def padded_inputs : List (List Int) :=
  [[711, 632, 71, 0, 0, 0],
   [73, 8, 3215, 55, 927, 0],
   [83, 91, 1, 645, 1253, 927]]

/-! ### Masking (`CustomEmbedding.compute_mask` and the recorded masks) -/

/-- `tf.not_equal(inputs, 0)` on a 2D integer batch: the elementwise
boolean mask. -/
def notEqualZeroMask (inputs : List (List Int)) : List (List Bool) :=
  inputs.map (List.map (fun v => decide (v ≠ 0)))

/-- `CustomEmbedding.compute_mask(inputs)`: `None` unless `mask_zero` was
set, else `tf.not_equal(inputs, 0)`. -/
def compute_mask (maskZero : Bool) (inputs : List (List Int)) :
    Option (List (List Bool)) :=
  if !maskZero then none else some (notEqualZeroMask inputs)

/-- The mask the notebook records for
`Embedding(..., mask_zero=True)(padded_inputs)._keras_mask` and, equally,
for `Masking()(unmasked_embedding)._keras_mask`. -/
def recordedMask : List (List Bool) :=
  [[true, true, true, false, false, false],
   [true, true, true, true, true, false],
   [true, true, true, true, true, true]]

/-- `tf.tile(tf.expand_dims(x, axis=-1), [1, 1, k])`: every scalar entry
becomes a constant feature vector of length `k`. -/
def tileExpand (k : Nat) (x : List (List Int)) : List (List (List Int)) :=
  x.map (List.map (fun v => List.replicate k v))

/-- The `Masking()` layer's mask on a 3D input (mask_value 0): a timestep
is kept exactly when some feature of it differs from 0. -/
def maskingLayerMask (x : List (List (List Int))) : List (List Bool) :=
  x.map (List.map (fun feat => feat.any (fun v => decide (v ≠ 0))))

/-! ### `EarlyStoppingAtMinLoss` -/

/-- The joint state of `EarlyStoppingAtMinLoss` and the observed model:
the callback attributes `patience`, `wait`, `stopped_epoch`, `best`
(`np.Inf` is `⊤`), `best_weights` (`None` initially), and the model's
`stop_training` flag and weights (weights of type `W`). -/
structure ESState (W : Type) where
  patience : Nat
  wait : Nat
  stoppedEpoch : Nat
  best : WithTop ℚ
  bestWeights : Option W
  stopTraining : Bool
  modelWeights : Option W

/-- `EarlyStoppingAtMinLoss.on_train_begin`: reset `wait` and
`stopped_epoch` to 0 and `best` to infinity. -/
def esOnTrainBegin {W : Type} (st : ESState W) : ESState W :=
  { st with wait := 0, stoppedEpoch := 0, best := ⊤ }

/-- `EarlyStoppingAtMinLoss.on_epoch_end`: on a strict improvement record
the new best loss and the current model weights and reset `wait`;
otherwise increment `wait` and, once `wait >= patience`, record the epoch,
set `model.stop_training = True` and restore `best_weights` into the
model. -/
def esOnEpochEnd {W : Type} (epoch : Nat) (current : ℚ) (st : ESState W) :
    ESState W :=
  if (current : WithTop ℚ) < st.best then
    { st with
      best := (current : WithTop ℚ)
      wait := 0
      bestWeights := st.modelWeights }
  else
    if st.patience ≤ st.wait + 1 then
      { st with
        wait := st.wait + 1
        stoppedEpoch := epoch
        stopTraining := true
        modelWeights := st.bestWeights }
    else { st with wait := st.wait + 1 }

/-- One training epoch as the callback sees it: the driver trains (setting
the model weights for this epoch) and then invokes `on_epoch_end` with the
epoch index and the epoch's loss. -/
def esStep {W : Type} (st : ESState W) (p : Nat × ℚ × W) : ESState W :=
  esOnEpochEnd p.1 p.2.1 { st with modelWeights := some p.2.2 }

/-- Folding the callback over a run: a list of
(epoch index, epoch loss, model weights at that epoch's end). -/
def esRunFold {W : Type} (st : ESState W) (run : List (Nat × ℚ × W)) :
    ESState W :=
  run.foldl esStep st

/-- `on_epoch_end` keeps `best` equal to the minimum loss seen. -/
lemma esOnEpochEnd_best {W : Type} (epoch : Nat) (current : ℚ)
    (st : ESState W) :
    (esOnEpochEnd epoch current st).best =
      min st.best (current : WithTop ℚ) := by
  rw [esOnEpochEnd]
  by_cases h : (current : WithTop ℚ) < st.best
  · rw [if_pos h]
    exact (min_eq_right (le_of_lt h)).symm
  · rw [if_neg h]
    have hle : st.best ≤ (current : WithTop ℚ) := le_of_not_lt h
    by_cases h2 : st.patience ≤ st.wait + 1
    · rw [if_pos h2]
      exact (min_eq_left hle).symm
    · rw [if_neg h2]
      exact (min_eq_left hle).symm

/-- Folding the run keeps `best` equal to the running minimum of the
losses. -/
lemma esRunFold_best {W : Type} :
    ∀ (run : List (Nat × ℚ × W)) (st : ESState W),
      (esRunFold st run).best =
        run.foldl (fun b p => min b ((p.2.1 : ℚ) : WithTop ℚ)) st.best := by
  intro run
  induction run with
  | nil => intro st; rfl
  | cons p rest ih =>
      intro st
      rw [esRunFold, List.foldl_cons, List.foldl_cons]
      have h1 : esStep st p = esOnEpochEnd p.1 p.2.1
          { st with modelWeights := some p.2.2 } := rfl
      have h2 := ih (esStep st p)
      rw [esRunFold] at h2
      rw [h2, h1, esOnEpochEnd_best]

/-! ## The claims -/

/-- C1, counterexample: in the recorded `fit` trace the training run begins
first and ends last, yet an event of another run — the run-begin of the
embedded validation (test) run — occurs strictly inside it, so the claim's
"no events of another run interleaved inside the trace" fails on the code's
own recorded trace. -/
theorem fit_trace_interleaves_validation_run :
    fitTrace.head? = some (Ev.runBegin Mode.train []) ∧
    fitTrace.getLast? = some (Ev.runEnd Mode.train valMetricKeys) ∧
    Ev.runBegin Mode.test [] ∈ fitTrace ∧
    evMode (Ev.runBegin Mode.test []) ≠ Mode.train := by
  refine ⟨rfl, by decide, by decide, by decide⟩

/-- C1, amended: in every recorded run the subsequence of the trace made of
that run's own events matches the nominal pattern — for the training run,
run-begin, then epoch blocks of epoch-begin, paired batch-begin/batch-end
events, epoch-end, then run-end; for the evaluation and prediction runs,
run-begin, paired batch events, run-end — but events of the nested
validation run do appear inside the training run's trace. -/
theorem per_run_trace_grammar :
    matchesTrainGrammar (projectMode Mode.train fitTrace) = true ∧
    matchesFlatGrammar Mode.test (projectMode Mode.test fitTrace) = true ∧
    matchesFlatGrammar Mode.test evaluateTrace = true ∧
    matchesFlatGrammar Mode.predict predictTrace = true := by
  refine ⟨by decide, by decide, by decide, by decide⟩

/-- C2, counterexample: the recorded `predict` trace ends with a run-end
whose `logs` dict is empty even though all eight batches of the run have
completed (`Stop predicting; got log keys: []`), so the metrics contract
fails on the prediction run. -/
theorem predict_run_end_logs_empty :
    metricsContract predictTrace = false ∧
    Ev.batchEnd Mode.predict 0 ["outputs"] ∈ predictTrace ∧
    predictTrace.getLast? = some (Ev.runEnd Mode.predict []) := by
  refine ⟨by decide, by decide, by decide⟩

/-- C2, amended: in the recorded traces every "begin" event receives an
empty `logs` dict, and every "end" event occurring once at least one batch
of the run has completed receives a non-empty one — except the `predict`
run-end, which receives an empty `logs` dict. -/
theorem logs_contract_per_event :
    metricsContract fitTrace = true ∧
    metricsContract evaluateTrace = true ∧
    beginsEmpty predictTrace = true ∧
    endsPopulated false predictTrace.dropLast = true ∧
    predictTrace.getLast? = some (Ev.runEnd Mode.predict []) := by
  refine ⟨by decide, by decide, by decide, by decide, by decide⟩

/-- C4, counterexample: identifying the lifecycle points with the
overridable observer methods (the claim's own enumeration — run-begin and
run-end for each of train/test/predict, batch-begin and batch-end for each,
epoch-begin and epoch-end), the interface has fourteen of them, not nine. -/
theorem callback_interface_has_fourteen_methods :
    callbackMethods.length = 14 ∧ ¬ callbackMethods.length = 9 := by
  refine ⟨rfl, by decide⟩

/-- C4, amended: the observer interface comprises exactly fourteen
lifecycle methods — run-begin and run-end for each of train/test/predict
(three of each), batch-begin and batch-end for each (three of each), and
epoch-begin and epoch-end (training only, one of each) — and a method
receives an identifying index (epoch or batch number) exactly when it is a
batch-level or epoch-level method. -/
theorem callback_interface_fourteen_points :
    callbackMethods.length = 14 ∧
    (callbackMethods.filter
      (fun m => decide (m.kind = PointKind.runB))).length = 3 ∧
    (callbackMethods.filter
      (fun m => decide (m.kind = PointKind.runE))).length = 3 ∧
    (callbackMethods.filter
      (fun m => decide (m.kind = PointKind.batchB))).length = 3 ∧
    (callbackMethods.filter
      (fun m => decide (m.kind = PointKind.batchE))).length = 3 ∧
    (callbackMethods.filter
      (fun m => decide (m.kind = PointKind.epochB))).length = 1 ∧
    (callbackMethods.filter
      (fun m => decide (m.kind = PointKind.epochE))).length = 1 ∧
    callbackMethods.all
      (fun m => m.takesIndex == isIndexedPoint m.kind) = true := by
  refine ⟨rfl, by decide, by decide, by decide, by decide, by decide,
    by decide, by decide⟩

/-- C3: in the spec-modelled training driver, if the observer sets the
shared stop flag during epoch `k`'s invocations, the driver — which checks
the flag after each epoch — begins no epoch after `k` in that run, and the
run-end event is still delivered as the trace's last event. -/
theorem stop_flag_halts_training {S : Type} (cb : S → Nat → S × Bool)
    (nb epochs : Nat) (s0 : S) (k : Nat)
    (hstop : stopRequestedAt cb s0 k = true) :
    (∀ (j : Nat) (ks : List String), k < j →
        Ev.epochBegin j ks ∉ fitRun cb nb epochs s0) ∧
    (fitRun cb nb epochs s0).getLast? =
      some (Ev.runEnd Mode.train metricKeys) := by
  constructor
  · intro j ks hkj hmem
    rw [fitRun] at hmem
    simp only [List.mem_cons, List.mem_append, List.mem_singleton] at hmem
    rcases hmem with h | h | h
    · exact absurd h (by simp)
    · have hfalse := epochBegin_mem_fitGo cb nb epochs 0 s0 j ks h k
        (by omega)
      rw [Nat.zero_add] at hfalse
      rw [stopRequestedAt] at hstop
      rw [hstop] at hfalse
      exact absurd hfalse (by simp)
    · exact absurd h (by simp)
  · rw [fitRun, ← List.cons_append]
    exact List.getLast?_concat _

/-- Witness for C3 at a concrete observer that requests a stop at epoch 1
of a five-epoch run: epoch 2 never begins and run-end is last. -/
theorem stop_flag_halts_training_witness :
    Ev.epochBegin 2 [] ∉
      fitRun (fun (s e : Nat) => (s + 1, decide (e = 1))) 1 5 0 ∧
    (fitRun (fun (s e : Nat) => (s + 1, decide (e = 1))) 1 5 0).getLast? =
      some (Ev.runEnd Mode.train metricKeys) := by
  have h := stop_flag_halts_training
    (fun (s e : Nat) => (s + 1, decide (e = 1))) 1 5 0 1 (by decide)
  exact ⟨h.1 2 [] (by omega), h.2⟩

/-- C5: with `mask_zero=True`, `compute_mask` returns the elementwise
`tf.not_equal(inputs, 0)` mask: it has one row per sample of the same
length as the sample (shape `(batch_size, sequence_length)`), its entry at
(i, t) is `true` exactly when input timestep `t` of sample `i` is
non-zero — every padded (zero) position is `false`; on the notebook's
`padded_inputs` it reproduces the recorded `_keras_mask` of the
`Embedding(mask_zero=True)` layer, as does the `Masking` layer's mask on
the tiled embedding, and with `mask_zero=False` no mask is produced. -/
theorem compute_mask_spec (inputs : List (List Int)) (i t : Nat) :
    compute_mask true inputs = some (notEqualZeroMask inputs) ∧
    (notEqualZeroMask inputs).length = inputs.length ∧
    ((notEqualZeroMask inputs).getD i []).length =
      (inputs.getD i []).length ∧
    (((notEqualZeroMask inputs).getD i []).getD t false = true ↔
      (inputs.getD i []).getD t 0 ≠ 0) ∧
    compute_mask true padded_inputs = some recordedMask ∧
    compute_mask false padded_inputs = none ∧
    maskingLayerMask (tileExpand 10 padded_inputs) = recordedMask := by
  refine ⟨rfl, by simp [notEqualZeroMask], ?_, ?_, by decide, rfl, by decide⟩
  · rcases hx : inputs[i]? with _ | row <;>
      simp [notEqualZeroMask, List.getD, hx]
  · rcases hx : inputs[i]? with _ | row
    · simp [notEqualZeroMask, List.getD, hx]
    · rcases ht : row[t]? with _ | v <;>
        simp [notEqualZeroMask, List.getD, hx, ht]

/-- All sequence lengths are bounded by `maxSeqLen`. -/
lemma length_le_maxSeqLen {s : List Int} :
    ∀ {seqs : List (List Int)}, s ∈ seqs → s.length ≤ maxSeqLen seqs := by
  intro seqs
  induction seqs with
  | nil => intro h; simp at h
  | cons x xs ih =>
      intro h
      simp only [maxSeqLen, List.map_cons, List.foldr_cons]
      rcases List.mem_cons.mp h with rfl | hmem
      · exact le_max_left _ _
      · exact le_trans (ih hmem) (le_max_right _ _)

/-- `maxSeqLen` of a non-empty list is the length of one of its
sequences. -/
lemma maxSeqLen_attained :
    ∀ {seqs : List (List Int)}, seqs ≠ [] →
      ∃ s ∈ seqs, s.length = maxSeqLen seqs := by
  intro seqs
  induction seqs with
  | nil => intro h; exact absurd rfl h
  | cons x xs ih =>
      intro _
      by_cases hxs : xs = []
      · subst hxs
        exact ⟨x, List.mem_cons_self _ _, by simp [maxSeqLen]⟩
      · obtain ⟨s, hs, hlen⟩ := ih hxs
        rcases le_total (maxSeqLen xs) x.length with hle | hle
        · refine ⟨x, List.mem_cons_self _ _, ?_⟩
          simp only [maxSeqLen, List.map_cons, List.foldr_cons]
          exact (max_eq_left hle).symm
        · refine ⟨s, List.mem_cons_of_mem _ hs, ?_⟩
          simp only [maxSeqLen, List.map_cons, List.foldr_cons]
          rw [hlen]
          exact (max_eq_right hle).symm

/-- C6: `pad_sequences` with `padding='post'` maps a non-empty list of
integer sequences to a rectangular array: one row per input, every row of
the common length `maxSeqLen` — the length of the longest input, attained
by one of the inputs — and each row is the corresponding input followed by
the filler 0 in the remaining positions; on the notebook's `raw_inputs` it
produces exactly the recorded `padded_inputs`. -/
theorem pad_sequences_post_spec (seqs : List (List Int)) (i : Nat)
    (hne : seqs ≠ []) (hi : i < seqs.length) :
    (pad_sequences_post seqs).length = seqs.length ∧
    (∃ s ∈ seqs, s.length = maxSeqLen seqs) ∧
    (∀ s ∈ seqs, s.length ≤ maxSeqLen seqs) ∧
    ((pad_sequences_post seqs).getD i []).length = maxSeqLen seqs ∧
    (pad_sequences_post seqs).getD i [] =
      seqs.getD i [] ++
        List.replicate (maxSeqLen seqs - (seqs.getD i []).length) 0 ∧
    pad_sequences_post raw_inputs = padded_inputs := by
  have hget : seqs[i]? = some seqs[i] := List.getElem?_eq_getElem hi
  have hmem : seqs[i] ∈ seqs := List.getElem_mem hi
  refine ⟨by simp [pad_sequences_post], maxSeqLen_attained hne,
    fun s hs => length_le_maxSeqLen hs, ?_, ?_, by decide⟩
  · have hb := length_le_maxSeqLen hmem
    simp [pad_sequences_post, List.getD, hget]
    omega
  · simp [pad_sequences_post, List.getD, hget]

/-- Witness for C6 at the notebook's `raw_inputs` (row 0). -/
theorem pad_sequences_post_spec_witness :
    pad_sequences_post raw_inputs = padded_inputs ∧
    ((pad_sequences_post raw_inputs).getD 0 []).length =
      maxSeqLen raw_inputs := by
  have h := pad_sequences_post_spec raw_inputs 0 (by decide) (by decide)
  exact ⟨h.2.2.2.2.2, h.2.2.2.1⟩

/-- C7: epoch events occur only in training: the recorded evaluation and
prediction traces, the test-run events embedded in the recorded fit trace,
and every trace of the spec-modelled evaluation/prediction driver contain
no epoch-begin or epoch-end event. -/
theorem no_epoch_events_outside_training :
    hasEpochEvent evaluateTrace = false ∧
    hasEpochEvent predictTrace = false ∧
    hasEpochEvent (projectMode Mode.test fitTrace) = false ∧
    ∀ (m : Mode) (ks rks : List String) (nb : Nat),
      hasEpochEvent (flatRun m ks rks nb) = false := by
  refine ⟨by decide, by decide, by decide, ?_⟩
  intro m ks rks nb
  simp [hasEpochEvent, flatRun, isEpochEv, batchSeq_no_epoch]

/-- C8, counterexample: `CustomLearningRateScheduler.on_epoch_begin` —
code original to this repository — raises a `ValueError` of its own when
the model's optimizer has no `lr` attribute, so not every error condition
is signalled by the external framework. -/
theorem scheduler_raises_value_error :
    clrsOnEpochBegin lr_schedule false 0 (1/10) =
      Except.error "Optimizer must have a \"lr\" attribute." := rfl

/-- C8, amended: the one error raised by code original to this repository
is `CustomLearningRateScheduler.on_epoch_begin`'s `ValueError` when the
optimizer lacks an `lr` attribute; with the attribute present the method
raises nothing and returns the scheduled rate. -/
theorem scheduler_error_iff_missing_lr (hasLr : Bool) (epoch : Nat)
    (lr : ℚ) :
    clrsOnEpochBegin lr_schedule hasLr epoch lr =
      (if hasLr then Except.ok (lr_schedule epoch lr)
       else Except.error "Optimizer must have a \"lr\" attribute.") := by
  cases hasLr <;> rfl

/-- C9: `lr_schedule` is a pure function of its two arguments, returning
0.05 at epoch 3, 0.01 at epoch 6, 0.005 at epoch 9, 0.001 at epoch 12,
and the given `lr` unchanged at every other epoch. -/
theorem lr_schedule_spec (lr : ℚ) :
    lr_schedule 3 lr = 5/100 ∧ lr_schedule 6 lr = 1/100 ∧
    lr_schedule 9 lr = 5/1000 ∧ lr_schedule 12 lr = 1/1000 ∧
    ∀ epoch : Nat, epoch ≠ 3 → epoch ≠ 6 → epoch ≠ 9 → epoch ≠ 12 →
      lr_schedule epoch lr = lr := by
  refine ⟨rfl, rfl, rfl, rfl, ?_⟩
  intro epoch h3 h6 h9 h12
  have hc : (LR_SCHEDULE.head?.getD (0, 0)).1 = 3 := rfl
  have hd : (LR_SCHEDULE.getLast?.getD (0, 0)).1 = 12 := rfl
  rw [lr_schedule, hc, hd]
  by_cases hlt : epoch < 3 ∨ 12 < epoch
  · rw [if_pos hlt]
  · rw [if_neg hlt]
    push_neg at hlt
    obtain ⟨hlo, hhi⟩ := hlt
    interval_cases epoch <;> simp_all [scheduleLookup, LR_SCHEDULE]

/-- Witness for C9 at the boundary epoch 3 and the non-boundary epoch 7
with learning rate 0.1. -/
theorem lr_schedule_spec_witness :
    lr_schedule 3 (1/10) = 5/100 ∧ lr_schedule 7 (1/10) = 1/10 := by
  have h := lr_schedule_spec (1/10)
  exact ⟨h.1, h.2.2.2.2 7 (by decide) (by decide) (by decide) (by decide)⟩

/-- C10: at every epoch-end `EarlyStoppingAtMinLoss` keeps `best` equal to
the minimum loss seen so far (also across a whole run, by the last
conjunct); on a strict improvement it resets the wait counter to 0 and
records the current model weights as `best_weights`; otherwise the counter
increases by one, and the first time it reaches at least `patience` the
callback sets `model.stop_training = True`, records the epoch, and
restores the recorded best weights into the model, leaving the flag and
weights untouched while the counter is still below `patience`. -/
theorem early_stopping_spec {W : Type} (st : ESState W) (epoch : Nat)
    (current : ℚ) :
    ((esOnEpochEnd epoch current st).best
        = min st.best (current : WithTop ℚ)) ∧
    ((current : WithTop ℚ) < st.best →
      (esOnEpochEnd epoch current st).wait = 0 ∧
      (esOnEpochEnd epoch current st).bestWeights = st.modelWeights ∧
      (esOnEpochEnd epoch current st).stopTraining = st.stopTraining) ∧
    (¬ (current : WithTop ℚ) < st.best →
      (esOnEpochEnd epoch current st).wait = st.wait + 1 ∧
      (esOnEpochEnd epoch current st).bestWeights = st.bestWeights ∧
      (st.patience ≤ st.wait + 1 →
        (esOnEpochEnd epoch current st).stopTraining = true ∧
        (esOnEpochEnd epoch current st).modelWeights = st.bestWeights ∧
        (esOnEpochEnd epoch current st).stoppedEpoch = epoch) ∧
      (st.wait + 1 < st.patience →
        (esOnEpochEnd epoch current st).stopTraining = st.stopTraining ∧
        (esOnEpochEnd epoch current st).modelWeights = st.modelWeights)) ∧
    (∀ run : List (Nat × ℚ × W),
      (esRunFold st run).best =
        run.foldl (fun b p => min b ((p.2.1 : ℚ) : WithTop ℚ)) st.best) := by
  refine ⟨esOnEpochEnd_best _ _ _, ?_, ?_, fun run => esRunFold_best run st⟩
  · intro h
    unfold esOnEpochEnd
    rw [if_pos h]
    exact ⟨rfl, rfl, rfl⟩
  · intro h
    unfold esOnEpochEnd
    rw [if_neg h]
    by_cases h2 : st.patience ≤ st.wait + 1
    · rw [if_pos h2]
      exact ⟨rfl, rfl, fun _ => ⟨rfl, rfl, rfl⟩,
        fun hlt => absurd h2 (by omega)⟩
    · rw [if_neg h2]
      exact ⟨rfl, rfl, fun hge => absurd hge h2, fun _ => ⟨rfl, rfl⟩⟩

/-- Witness for C10: an improving epoch (loss 5 against best `⊤`) resets
the wait counter, and a non-improving epoch (loss 9 against best 5) at
patience 1 sets the stop flag. -/
theorem early_stopping_spec_witness :
    (esOnEpochEnd 0 5
      (⟨1, 0, 0, ⊤, none, false, some 7⟩ : ESState Nat)).wait = 0 ∧
    (esOnEpochEnd 3 9
      (⟨1, 0, 0, ((5 : ℚ) : WithTop ℚ), some 7, false, some 8⟩ :
        ESState Nat)).stopTraining = true := by
  have h1 := early_stopping_spec (W := Nat)
    ⟨1, 0, 0, ⊤, none, false, some 7⟩ 0 5
  have h2 := early_stopping_spec (W := Nat)
    ⟨1, 0, 0, ((5 : ℚ) : WithTop ℚ), some 7, false, some 8⟩ 3 9
  refine ⟨(h1.2.1 ?_).1, ((h2.2.2.1 ?_).2.2.1 ?_).1⟩
  · exact WithTop.coe_lt_top 5
  · rw [WithTop.coe_lt_coe]
    norm_num
  · decide

end Keras
